import Mathlib

/-!
Verification of the audio synthesis sidecar (`src/services/audio/server.py`).

Shallow embedding conventions:
* Python strings are `List Char`; Python floats that only enter arithmetic
  comparisons and divisions are modelled as `ℚ`.
* Filesystem checks, subprocess outcomes and dynamic imports are oracles
  carried in explicit environment structures; the process-wide `STATE`
  object is an explicit `RuntimeState` value threaded through operations.
* Fallible Python code returns `Except PyErr`.
-/

/-! ## Definitions (shallow embedding of `src/services/audio/server.py`) -/

/-- Whitespace predicate used by `str.split()`, `str.strip()` and `\s`
(ASCII range, which is all the server ever feeds these helpers). -/
def pyIsSpace (c : Char) : Bool :=
  c == ' ' || c == '\t' || c == '\n' || c == '\r' || c == '\x0b' || c == '\x0c'

/-- Python `str.lower()` on one character (ASCII case mapping). -/
def pyLowerChar (c : Char) : Char := c.toLower

/-- Python `str.lower()`. -/
def pyLower (l : List Char) : List Char := l.map pyLowerChar

/-- Python `str.lstrip()`. -/
def pyLStrip (l : List Char) : List Char := l.dropWhile pyIsSpace

/-- Python `str.rstrip()`. -/
def pyRStrip (l : List Char) : List Char := (l.reverse.dropWhile pyIsSpace).reverse

/-- Python `str.strip()`. -/
def pyStrip (l : List Char) : List Char := pyRStrip (pyLStrip l)

/-- Python `a or b` on strings: the first operand unless it is empty. -/
def pyOr (a b : List Char) : List Char := if a = [] then b else a

/-- Python `str.endswith(suffix)`. -/
def pyEndsWith (suffix l : List Char) : Bool :=
  decide (l.reverse.take suffix.length = suffix.reverse)

/-- `len(text.split())`: the number of maximal runs of non-whitespace
characters.  The boolean argument records whether the previous character
was part of a word. -/
def pyWordCountGo : Bool → List Char → ℕ
  | _, [] => 0
  | inWord, c :: rest =>
    if pyIsSpace c then pyWordCountGo false rest
    else (if inWord then 0 else 1) + pyWordCountGo true rest

/-- `len(text.split())`. -/
def pyWordCount (l : List Char) : ℕ := pyWordCountGo false l

/-- Python `sep.join(parts)`. -/
def joinSep (sep : List Char) : List (List Char) → List Char
  | [] => []
  | [x] => x
  | x :: xs => x ++ sep ++ joinSep sep xs

/-- Python `text.startswith("[")`. -/
def startsWithBracket : List Char → Bool
  | [] => false
  | c :: _ => c == '['

/-- Scanner behind `re.sub(r"\s+", " ", text)`: every maximal whitespace
run becomes one space.  The boolean records whether the previous input
character was whitespace (in which case further whitespace is dropped). -/
def collapseWsGo : Bool → List Char → List Char
  | _, [] => []
  | prev, c :: rest =>
    if pyIsSpace c then
      if prev then collapseWsGo true rest else ' ' :: collapseWsGo true rest
    else c :: collapseWsGo false rest

/-- `re.sub(r"\s+", " ", text)`. -/
def pyCollapseWs (l : List Char) : List Char := collapseWsGo false l

/-- Scanner behind `re.sub(r"\s+" + t, t, text)` for a non-whitespace
single character `t` (the server uses `,` and `.`): each maximal
whitespace run immediately followed by `t` is deleted.  `buf` holds the
pending (reversed) whitespace run not yet known to precede `t`. -/
def subWsBeforeGo (t : Char) : List Char → List Char → List Char
  | buf, [] => buf.reverse
  | buf, c :: rest =>
    if pyIsSpace c then subWsBeforeGo t (c :: buf) rest
    else if c == t then c :: subWsBeforeGo t [] rest
    else buf.reverse ++ c :: subWsBeforeGo t [] rest

/-- `re.sub(r"\s+,", ",", text)` (with `t := ','`), and the `.` variant. -/
def pySubWsBefore (t : Char) (l : List Char) : List Char := subWsBeforeGo t [] l

/-- `normalize_for_speech` (server.py:683-687): collapse whitespace, trim,
then drop whitespace before commas and before periods. -/
def normalize_for_speech (l : List Char) : List Char :=
  pySubWsBefore '.' (pySubWsBefore ',' (pyStrip (pyCollapseWs l)))

/-- `apply_expression_tags` (server.py:664-676). -/
def apply_expression_tags (text : List Char) (expression_tags : List (List Char)) :
    List Char :=
  if expression_tags = [] then text
  else
    let normalized_tags :=
      (expression_tags.filter (fun t => pyStrip t ≠ [])).map
        (fun t => pyLower (pyStrip t))
    if normalized_tags = [] then text
    else
      let tagMark := joinSep [' '] (normalized_tags.map (fun t => '[' :: (t ++ [']'])))
      if startsWithBracket text then text
      else tagMark ++ ' ' :: text

/-- The raw (pre-clamp) stub duration `len(text.split()) / max(2.8 * speed, 0.5)`
from `synthesize_stub` (server.py:695), in seconds, over ℚ. -/
def stubRawDuration (text : List Char) (speed : ℚ) : ℚ :=
  (pyWordCount text : ℚ) / max ((28 / 10) * speed) (5 / 10)

/-- `duration_seconds = max(0.35, min(12.0, len(text.split()) / max(2.8 * speed, 0.5)))`
from `synthesize_stub` (server.py:695). -/
def stubDurationSeconds (text : List Char) (speed : ℚ) : ℚ :=
  max (35 / 100) (min 12 (stubRawDuration text speed))

/-- Modelled from the spec's words for comparison with `stubDurationSeconds`:
`clamp(word_count / (2.8 * speed), 0.35, 12.0)` with no floor on the
denominator. -/
def stubDurationSpec (text : List Char) (speed : ℚ) : ℚ :=
  max (35 / 100) (min 12 ((pyWordCount text : ℚ) / ((28 / 10) * speed)))

/-- Modelled from the claim's words for comparison with
`apply_expression_tags`: the bracketed rendering of the lowercased,
trimmed tags in their original order. -/
def claimedTagRendering (tags : List (List Char)) : List Char :=
  joinSep [' '] (tags.map (fun t => '[' :: (pyLower (pyStrip t) ++ [']'])))

/-- Every whitespace character is a plain space. -/
def okChar (c : Char) : Bool := !pyIsSpace c || c == ' '

/-- Scanner: no whitespace character is immediately followed by a
character satisfying `q`.  The boolean is the `pyIsSpace`-ness of the
previous character. -/
def noWsPairGo (q : Char → Bool) : Bool → List Char → Bool
  | _, [] => true
  | prev, c :: rest => (!(prev && q c)) && noWsPairGo q (pyIsSpace c) rest

/-- The head, if any, is not whitespace. -/
def headNotWs : List Char → Bool
  | [] => true
  | c :: _ => !pyIsSpace c

/-- Outcome of a completed `subprocess.run` call. -/
structure CompletedProcess where
  returncode : Int
  stdout : List Char
  stderr : List Char
deriving DecidableEq

/-- Python exceptions relevant to the server. -/
inductive PyErr
  | runtimeError (msg : List Char)
  | fileNotFoundError (msg : List Char)
  | keyError (msg : List Char)
deriving DecidableEq

/-- `SynthResult` dataclass (server.py:111-114). -/
structure SynthResult where
  wav_path : List Char
  used_engine : List Char
deriving DecidableEq

/-- `RuntimeState` (server.py:117-124).  `mlx_load_model` records whether
the loader reference is set (the callable itself lives in the
environment); `load_calls` is instrumentation counting invocations of the
resolved loader, as the spec's load-call-counting test double suggests. -/
structure RuntimeState where
  model_cache : List (List Char × ℕ)
  model_source : List (List Char × List Char)
  mlx_probe_attempted : Bool
  mlx_probe_available : Bool
  mlx_probe_error : Option (List Char)
  mlx_load_model : Bool
  load_calls : ℕ
deriving DecidableEq

/-- The state constructed by `RuntimeState.__init__`. -/
def initialRuntimeState : RuntimeState :=
  { model_cache := [], model_source := [], mlx_probe_attempted := false,
    mlx_probe_available := false, mlx_probe_error := none,
    mlx_load_model := false, load_calls := 0 }

/-- Process-wide inputs that the runtime operations read: environment
variables, and oracles for the probe subprocess, the in-process
`mlx_audio` import, filesystem existence and the model loader. -/
structure RuntimeEnv where
  enableMlxVar : Option (List Char)
  probeOutcome : Except (List Char) CompletedProcess
  importOutcome : Except (List Char) Unit
  kokoroModelVar : Option (List Char)
  chatterboxModelVar : Option (List Char)
  modelsDirVar : Option (List Char)
  dirExists : List Char → Bool
  loadModelFn : List Char → ℕ

/-- `mlx_runtime_enabled` (server.py:446-447). -/
def mlx_runtime_enabled (env : RuntimeEnv) : Bool :=
  let v := pyLower (env.enableMlxVar.getD "1".toList)
  ¬(v = "0".toList ∨ v = "false".toList ∨ v = "no".toList)

/-- `probe_mlx_runtime` (server.py:459-480): mark the probe attempted, then
record availability from the probe subprocess's exit code (error text from
stderr, else stdout, else a generic exit message), or record the raised
exception's message. -/
def probe_mlx_runtime (env : RuntimeEnv) (s : RuntimeState) : RuntimeState :=
  if s.mlx_probe_attempted then s
  else
    let s1 := { s with mlx_probe_attempted := true }
    match env.probeOutcome with
    | .ok res =>
      let s2 := { s1 with mlx_probe_available := res.returncode == 0 }
      let msg := pyOr (pyStrip res.stderr)
        (pyOr (pyStrip res.stdout)
          ("probe_exit_".toList ++ (toString res.returncode).toList))
      if res.returncode ≠ 0 then { s2 with mlx_probe_error := some msg }
      else s2
    | .error msg =>
      { s1 with mlx_probe_available := false, mlx_probe_error := some msg }

/-- `mlx_runtime_available` (server.py:450-456). -/
def mlx_runtime_available (env : RuntimeEnv) (s : RuntimeState) :
    Bool × RuntimeState :=
  if ¬mlx_runtime_enabled env then (false, s)
  else
    let s1 := if ¬s.mlx_probe_attempted then probe_mlx_runtime env s else s
    (s1.mlx_probe_available, s1)

/-- `get_mlx_loader` (server.py:483-498): `none` models Python `None`; on a
failed in-process import the probe fields are downgraded. -/
def get_mlx_loader (env : RuntimeEnv) (s : RuntimeState) :
    Option Unit × RuntimeState :=
  let (avail, s1) := mlx_runtime_available env s
  if ¬avail then (none, s1)
  else if s1.mlx_load_model then (some (), s1)
  else
    match env.importOutcome with
    | .error msg =>
      (none, { s1 with mlx_probe_available := false, mlx_probe_error := some msg })
    | .ok _ => (some (), { s1 with mlx_load_model := true })

/-- The `MODEL_SOURCES[model_kind]["env"]` environment variable read
(server.py:34-43, 501-503); `none` models a `KeyError` on unknown kinds. -/
def modelSourceEnvRead (env : RuntimeEnv) (kind : List Char) :
    Option (Option (List Char)) :=
  if kind = "kokoro".toList then some env.kokoroModelVar
  else if kind = "chatterbox".toList then some env.chatterboxModelVar
  else none

/-- `resolve_model_source` (server.py:501-521). -/
def resolve_model_source (env : RuntimeEnv) (kind : List Char) :
    Except PyErr (List Char) :=
  match modelSourceEnvRead env kind with
  | none => .error (.keyError kind)
  | some envVar =>
    match envVar with
    | some v =>
      if v ≠ [] then .ok v
      else resolveModelSourceDir env kind
    | none => resolveModelSourceDir env kind
where
  /-- The models-directory fallback of `resolve_model_source`
  (server.py:507-521). -/
  resolveModelSourceDir (env : RuntimeEnv) (kind : List Char) :
      Except PyErr (List Char) :=
    let models_dir_value := pyStrip (env.modelsDirVar.getD [])
    if models_dir_value = [] then
      .error (.runtimeError
        ("LOCAL_PODCAST_MODELS_DIR is not set; cannot resolve bundled model.".toList))
    else
      let local_dir := models_dir_value ++ '/' :: kind
      if env.dirExists local_dir then .ok local_dir
      else .error (.runtimeError ("Bundled model directory missing: ".toList ++ local_dir))

/-- `get_or_load_model` (server.py:427-443).  Returns the handle (or the
raised error) together with the resulting state; the loader invocation is
counted in `load_calls`. -/
def get_or_load_model (env : RuntimeEnv) (s : RuntimeState) (kind : List Char) :
    Except PyErr ℕ × RuntimeState :=
  let (loader, s1) := get_mlx_loader env s
  match loader with
  | none =>
    (.error (.runtimeError "mlx-audio loader is unavailable in current runtime".toList), s1)
  | some _ =>
    match List.lookup kind s1.model_cache with
    | some h => (.ok h, s1)
    | none =>
      match resolve_model_source env kind with
      | .error e => (.error e, s1)
      | .ok source =>
        let h := env.loadModelFn source
        (.ok h,
          { s1 with
            model_cache := s1.model_cache ++ [(kind, h)],
            model_source := s1.model_source ++ [(kind, source)],
            load_calls := s1.load_calls + 1 })

/-- Concrete environment for the C2 counterexample: the probe subprocess
succeeds, but the later in-process import fails. -/
def envC2 : RuntimeEnv :=
  { enableMlxVar := none, probeOutcome := .ok ⟨0, [], []⟩,
    importOutcome := .error "boom".toList, kokoroModelVar := none,
    chatterboxModelVar := none, modelsDirVar := none,
    dirExists := fun _ => false, loadModelFn := fun _ => 0 }

/-- State used in the C2 witness: the probe has been attempted and reported
available, nothing else has run yet. -/
def stateC2 : RuntimeState :=
  { initialRuntimeState with mlx_probe_attempted := true, mlx_probe_available := true }

/-- Concrete environment for the C5 witness: probe succeeds, import
succeeds, the kokoro source comes from its environment override, and the
loader returns handle `7`. -/
def envC5 : RuntimeEnv :=
  { enableMlxVar := none, probeOutcome := .ok ⟨0, [], []⟩,
    importOutcome := .ok (), kokoroModelVar := some "m".toList,
    chatterboxModelVar := none, modelsDirVar := none,
    dirExists := fun _ => false, loadModelFn := fun _ => 7 }

/-- The state after the first `get_or_load_model` call in the C5 witness. -/
def stateC5 : RuntimeState :=
  { model_cache := [("kokoro".toList, 7)],
    model_source := [("kokoro".toList, "m".toList)],
    mlx_probe_attempted := true, mlx_probe_available := true,
    mlx_probe_error := none, mlx_load_model := true, load_calls := 1 }

/-- `VOICE_MAP` (server.py:45-50). -/
def VOICE_MAP : List (List Char × List Char) :=
  [("kokoro_narrator".toList, "af_heart".toList),
   ("kokoro_story".toList, "af_bella".toList),
   ("chatterbox_expressive".toList, "expressive".toList),
   ("chatterbox_studio".toList, "neutral".toList)]

/-- The final path component (`Path(...).name`). -/
def lastPathComponent (l : List Char) : List Char :=
  (l.reverse.takeWhile (fun c => c ≠ '/')).reverse

/-- `Path(...).stem`: the final component without its last suffix (a suffix
needs a dot at a positive index of the component). -/
def pathStem (l : List Char) : List Char :=
  let base := lastPathComponent l
  let afterDot := base.reverse.takeWhile (fun c => c ≠ '.')
  if afterDot.length + 1 < base.length then
    base.take (base.length - afterDot.length - 1)
  else base

/-- Configuration and filesystem oracle consumed by `resolve_voice_id`. -/
structure VoiceEnv where
  modelsDirVar : Option (List Char)
  pathExists : List Char → Bool

/-- `resolve_voice_id` (server.py:524-544).  `Path` round-trips are modelled
as the identity on the path string. -/
def resolve_voice_id (env : VoiceEnv) (voice_id model_kind : List Char) : List Char :=
  let mapped := pyStrip ((List.lookup voice_id VOICE_MAP).getD voice_id)
  if model_kind ≠ "kokoro".toList then pyOr mapped "neutral".toList
  else if pyEndsWith ".safetensors".toList mapped = true ∧ env.pathExists mapped = true then
    mapped
  else
    let mapped2 := if pyEndsWith ".safetensors".toList mapped then pathStem mapped else mapped
    let models_dir_value := pyStrip (env.modelsDirVar.getD [])
    let candidate :=
      models_dir_value ++ "/kokoro/voices/".toList ++ mapped2 ++ ".safetensors".toList
    if models_dir_value ≠ [] ∧ mapped2 ≠ [] ∧ env.pathExists candidate = true then candidate
    else pyOr mapped2 "af_heart".toList

/-- Concrete environment for the C7 witness. -/
def envC7 : VoiceEnv := { modelsDirVar := some "models".toList, pathExists := fun _ => true }

/-- Configuration and oracles consumed by `synthesize_kokoro_node`:
environment variables, the sibling script location, filesystem existence,
the completed child process (the model assumes the child completes within
the 600s timeout), and whether the output file exists after the run.  The
node binary, flag injection and cache-isolation environment variables only
shape the child invocation, which is abstracted by `runResult`. -/
structure NodeEnv where
  scriptOverrideVar : Option (List Char)
  siblingScriptPath : List Char
  fsExists : List Char → Bool
  runResult : CompletedProcess
  outputExistsAfterRun : Bool

/-- `resolve_kokoro_node_script_path` (server.py:570-585); `expanduser` and
`resolve` are modelled as the identity on the path string. -/
def resolve_kokoro_node_script_path (env : NodeEnv) : Except PyErr (List Char) :=
  let override := pyStrip (env.scriptOverrideVar.getD [])
  if override ≠ [] then
    if env.fsExists override then .ok override
    else .error (.fileNotFoundError
      ("Configured kokoro node script not found: ".toList ++ override))
  else if env.fsExists env.siblingScriptPath then .ok env.siblingScriptPath
  else .error (.fileNotFoundError
    ("Kokoro node script not found. Expected LOCAL_PODCAST_KOKORO_NODE_SCRIPT or sibling path services/kokoro-node/cli.mjs.".toList))

/-- The error detail of a failed node run (server.py:637-640):
stderr stripped, else stdout stripped, else `exit_<code>`. -/
def nodeFailureDetail (r : CompletedProcess) : List Char :=
  pyOr (pyStrip r.stderr)
    (pyOr (pyStrip r.stdout) ("exit_".toList ++ (toString r.returncode).toList))

/-- `synthesize_kokoro_node` (server.py:588-646): resolve the script (a
`FileNotFoundError` escapes when it cannot be located), run the child, and
fail with a `RuntimeError` on a non-zero exit code or on a zero exit
without the output file; otherwise report the `kokoro-node` engine. -/
def synthesize_kokoro_node (env : NodeEnv) (text output_path : List Char)
    (speed : ℚ) (voice_id : List Char) : Except PyErr SynthResult :=
  match resolve_kokoro_node_script_path env with
  | .error e => .error e
  | .ok _script =>
    if env.runResult.returncode ≠ 0 then
      .error (.runtimeError
        ("kokoro-node synthesis failed: ".toList ++ nodeFailureDetail env.runResult))
    else if env.outputExistsAfterRun = false then
      .error (.runtimeError
        "kokoro-node synthesis completed without writing output file".toList)
    else .ok { wav_path := output_path, used_engine := "kokoro-node".toList }

/-- Concrete environment for the C8 witness: script found, child exits with
code 1 and empty output streams. -/
def envC8 : NodeEnv :=
  { scriptOverrideVar := none, siblingScriptPath := "cli.mjs".toList,
    fsExists := fun _ => true, runResult := ⟨1, [], []⟩,
    outputExistsAfterRun := false }

/-- Backend attempts performed during one `synthesize` call (model
instrumentation recording which backends were invoked). -/
inductive BackendEvent
  | nodeAttempt
  | mlxAttempt
  | stubRun
deriving DecidableEq

/-- Oracles consumed by the orchestrator: the backend-mode environment
variable, the probed mlx availability, and the outcomes of the node backend
(indexed by attempt number), the mlx backend, and the stub's filesystem
writes, each as a function of the arguments the code passes them. -/
structure SynthEnv where
  kokoroBackendVar : Option (List Char)
  mlxAvailable : Bool
  nodeOutcome : ℕ → List Char → List Char → ℚ → List Char → Except PyErr SynthResult
  mlxOutcome : List Char → List Char → ℚ → List Char → List Char → Except PyErr Unit
  stubOutcome : List Char → List Char → ℚ → List Char → Except PyErr Unit

/-- `kokoro_backend_mode` (server.py:547-548). -/
def kokoro_backend_mode (v : Option (List Char)) : List Char :=
  pyLower (pyStrip (v.getD "auto".toList))

/-- `should_try_node_before_python` (server.py:551-554). -/
def should_try_node_before_python (v : Option (List Char)) (model_kind : List Char) : Bool :=
  if model_kind ≠ "kokoro".toList then false
  else decide (kokoro_backend_mode v = "node".toList ∨
    kokoro_backend_mode v = "node-first".toList)

/-- `should_try_node_after_python` (server.py:557-560). -/
def should_try_node_after_python (v : Option (List Char)) (model_kind : List Char) : Bool :=
  if model_kind ≠ "kokoro".toList then false
  else decide (kokoro_backend_mode v ∈
    ["auto".toList, "node".toList, "node-first".toList, "node-fallback".toList,
      "python-node".toList])

/-- The terminal stub fallback of `synthesize` (server.py:281-282 and
309-310): run `synthesize_stub` on the cleaned text (its filesystem outcome
is the oracle; an exception here is not caught) and report the `stub`
engine. -/
def synthStubStep (env : SynthEnv) (cleaned output_path : List Char) (speed : ℚ)
    (model : List Char) : Except PyErr SynthResult :=
  match env.stubOutcome cleaned output_path speed model with
  | .error e => .error e
  | .ok _ => .ok { wav_path := output_path, used_engine := "stub".toList }

/-- `synthesize` after the optional node-before attempt (server.py:267-310):
if mlx is unavailable, optionally try the node backend and fall back to the
stub; otherwise try mlx, on failure optionally try the node backend, and
fall back to the stub.  `idx` numbers the node attempts; `evs` accumulates
the backend attempts already made. -/
def synthesizeRest (env : SynthEnv) (cleaned render output_path : List Char)
    (speed : ℚ) (model voice_id : List Char) (idx : ℕ) (evs : List BackendEvent) :
    Except PyErr SynthResult × List BackendEvent :=
  if env.mlxAvailable = false then
    if should_try_node_after_python env.kokoroBackendVar model then
      match env.nodeOutcome idx render output_path speed voice_id with
      | .ok r => (.ok r, evs ++ [.nodeAttempt])
      | .error _ =>
        (synthStubStep env cleaned output_path speed model,
          evs ++ [.nodeAttempt, .stubRun])
    else (synthStubStep env cleaned output_path speed model, evs ++ [.stubRun])
  else
    match env.mlxOutcome render output_path speed model voice_id with
    | .ok _ =>
      (.ok { wav_path := output_path, used_engine := "mlx-audio".toList },
        evs ++ [.mlxAttempt])
    | .error _ =>
      if should_try_node_after_python env.kokoroBackendVar model then
        match env.nodeOutcome idx render output_path speed voice_id with
        | .ok r => (.ok r, evs ++ [.mlxAttempt, .nodeAttempt])
        | .error _ =>
          (synthStubStep env cleaned output_path speed model,
            evs ++ [.mlxAttempt, .nodeAttempt, .stubRun])
      else
        (synthStubStep env cleaned output_path speed model,
          evs ++ [.mlxAttempt, .stubRun])

/-- `synthesize` (server.py:242-310): normalize the text, apply expression
tags, optionally attempt the node backend first (its failure is swallowed),
then continue with the mlx/node/stub chain. -/
def synthesize (env : SynthEnv) (text output_path : List Char) (speed : ℚ)
    (model voice_id : List Char) (expression_tags : List (List Char)) :
    Except PyErr SynthResult × List BackendEvent :=
  let cleaned_text := normalize_for_speech text
  let render_text := apply_expression_tags cleaned_text expression_tags
  if should_try_node_before_python env.kokoroBackendVar model then
    match env.nodeOutcome 0 render_text output_path speed voice_id with
    | .ok r => (.ok r, [.nodeAttempt])
    | .error _ =>
      synthesizeRest env cleaned_text render_text output_path speed model voice_id 1
        [.nodeAttempt]
  else
    synthesizeRest env cleaned_text render_text output_path speed model voice_id 0 []

/-- Oracle set for the C1 and C10 witnesses: both real backends fail, the
stub's filesystem writes succeed. -/
def envC1 : SynthEnv :=
  { kokoroBackendVar := none, mlxAvailable := false,
    nodeOutcome := fun _ _ _ _ _ => .error (.runtimeError "node down".toList),
    mlxOutcome := fun _ _ _ _ _ => .error (.runtimeError "mlx down".toList),
    stubOutcome := fun _ _ _ _ => .ok () }

/-! ## Theorems -/

theorem nwp_mono {q : Char → Bool} {l : List Char} (b : Bool)
    (h : noWsPairGo q b l = true) : noWsPairGo q false l = true := by
  cases l with
  | nil => rfl
  | cons c rest =>
    simp only [noWsPairGo, Bool.and_eq_true, Bool.not_eq_true'] at h ⊢
    exact ⟨by simp, h.2⟩

theorem nwp_append_split {q : Char → Bool} (c : Char) (ys : List Char) :
    ∀ (xs : List Char) (b : Bool),
      noWsPairGo q b (xs ++ c :: ys) =
        (noWsPairGo q b (xs ++ [c]) && noWsPairGo q (pyIsSpace c) ys) := by
  intro xs
  induction xs with
  | nil =>
    intro b
    simp [noWsPairGo, Bool.and_assoc]
  | cons x xs ih =>
    intro b
    simp only [List.cons_append, noWsPairGo, List.append_eq, ih, Bool.and_assoc]

theorem nwp_append_left {q : Char → Bool} {ys : List Char} :
    ∀ (xs : List Char) (b : Bool),
      noWsPairGo q b (xs ++ ys) = true → noWsPairGo q b xs = true := by
  intro xs
  induction xs with
  | nil => intro b _; rfl
  | cons x xs ih =>
    intro b h
    simp only [List.cons_append, noWsPairGo, Bool.and_eq_true] at h ⊢
    exact ⟨h.1, ih _ h.2⟩

theorem nwp_append_right {q : Char → Bool} {ys : List Char} :
    ∀ (xs : List Char) (b : Bool),
      noWsPairGo q b (xs ++ ys) = true → noWsPairGo q false ys = true := by
  intro xs
  induction xs with
  | nil => intro b h; exact nwp_mono b h
  | cons x xs ih =>
    intro b h
    simp only [List.cons_append, noWsPairGo, Bool.and_eq_true] at h
    exact ih _ h.2

theorem nwp_allws {q : Char → Bool} (hq : ∀ c, pyIsSpace c = true → q c = false) :
    ∀ (m : List Char) (b : Bool), m.all pyIsSpace = true → noWsPairGo q b m = true := by
  intro m
  induction m with
  | nil => intro b _; rfl
  | cons x m ih =>
    intro b hall
    simp only [List.all_cons, Bool.and_eq_true] at hall
    simp only [noWsPairGo, Bool.and_eq_true, Bool.not_eq_true']
    exact ⟨by simp [hq x hall.1], ih _ hall.2⟩

theorem nwp_allws_append {q : Char → Bool} {c : Char} {xs : List Char}
    (hq : ∀ d, pyIsSpace d = true → q d = false) (hc : q c = false) :
    ∀ (m : List Char) (b : Bool), m.all pyIsSpace = true →
      noWsPairGo q b (m ++ c :: xs) = noWsPairGo q (pyIsSpace c) xs := by
  intro m
  induction m with
  | nil =>
    intro b _
    simp [noWsPairGo, hc]
  | cons x m ih =>
    intro b hall
    simp only [List.all_cons, Bool.and_eq_true] at hall
    simp only [List.cons_append, noWsPairGo, hq x hall.1, Bool.and_false,
      Bool.not_false, Bool.true_and]
    exact ih _ hall.2

theorem nwp_allws_target {q : Char → Bool} {c : Char} (hc : q c = true) :
    ∀ (m : List Char) (b : Bool), m.all pyIsSpace = true → m ≠ [] →
      noWsPairGo q b (m ++ [c]) = false := by
  intro m
  induction m with
  | nil => intro b _ hne; exact absurd rfl hne
  | cons x m ih =>
    intro b hall _
    simp only [List.all_cons, Bool.and_eq_true] at hall
    cases m with
    | nil =>
      simp [noWsPairGo, hall.1, hc]
    | cons y m' =>
      have h2 := ih (pyIsSpace x) hall.2 (by simp)
      simp only [List.cons_append, noWsPairGo, List.append_eq] at h2 ⊢
      rw [h2]
      simp

theorem collapse_allOk : ∀ (l : List Char) (b : Bool),
    (collapseWsGo b l).all okChar = true := by
  intro l
  induction l with
  | nil => intro b; rfl
  | cons c rest ih =>
    intro b
    by_cases hc : pyIsSpace c = true
    · cases b with
      | true => simpa [collapseWsGo, hc] using ih true
      | false =>
        simp only [collapseWsGo, hc, if_true, Bool.false_eq_true, if_false,
          List.all_cons, Bool.and_eq_true]
        exact ⟨by simp [okChar], ih true⟩
    · simp only [Bool.not_eq_true] at hc
      simp only [collapseWsGo, hc, Bool.false_eq_true, if_false, List.all_cons,
        Bool.and_eq_true]
      exact ⟨by simp [okChar, hc], ih false⟩

theorem collapse_head : ∀ (l : List Char), headNotWs (collapseWsGo true l) = true := by
  intro l
  induction l with
  | nil => rfl
  | cons c rest ih =>
    by_cases hc : pyIsSpace c = true
    · simpa [collapseWsGo, hc] using ih
    · simp only [Bool.not_eq_true] at hc
      simp [collapseWsGo, hc, headNotWs]

theorem nwp_of_head {l : List Char} (h : headNotWs l = true) :
    noWsPairGo pyIsSpace true l = noWsPairGo pyIsSpace false l := by
  cases l with
  | nil => rfl
  | cons c rest =>
    simp only [headNotWs, Bool.not_eq_true'] at h
    simp [noWsPairGo, h]

theorem collapse_nws : ∀ (l : List Char) (b : Bool),
    noWsPairGo pyIsSpace false (collapseWsGo b l) = true := by
  intro l
  induction l with
  | nil => intro b; rfl
  | cons c rest ih =>
    intro b
    by_cases hc : pyIsSpace c = true
    · cases b with
      | true => simpa [collapseWsGo, hc] using ih true
      | false =>
        simp only [collapseWsGo, hc, if_true, Bool.false_eq_true, if_false]
        simp only [noWsPairGo, Bool.false_and, Bool.not_false, Bool.true_and]
        have hsp : pyIsSpace ' ' = true := by decide
        rw [hsp, nwp_of_head (collapse_head rest)]
        exact ih true
    · simp only [Bool.not_eq_true] at hc
      simp only [collapseWsGo, hc, Bool.false_eq_true, if_false]
      simp only [noWsPairGo, Bool.and_false, Bool.false_and, Bool.not_false,
        Bool.true_and, hc]
      exact ih false

theorem collapse_id : ∀ (l : List Char) (b : Bool),
    l.all okChar = true → noWsPairGo pyIsSpace b l = true → collapseWsGo b l = l := by
  intro l
  induction l with
  | nil => intro b _ _; rfl
  | cons c rest ih =>
    intro b hall hnp
    simp only [List.all_cons, Bool.and_eq_true] at hall
    simp only [noWsPairGo, Bool.and_eq_true, Bool.not_eq_true'] at hnp
    by_cases hc : pyIsSpace c = true
    · have hb : b = false := by
        cases b
        · rfl
        · rw [hc] at hnp; simpa using hnp.1
      subst hb
      have hcs : c = ' ' := by
        have h1 := hall.1
        simp only [okChar, hc, Bool.not_true, Bool.false_or] at h1
        exact eq_of_beq h1
      subst hcs
      have h2 := hnp.2
      rw [hc] at h2
      simp only [collapseWsGo, hc, if_true, Bool.false_eq_true, if_false]
      rw [ih true hall.2 h2]
    · simp only [Bool.not_eq_true] at hc
      simp only [collapseWsGo, hc, Bool.false_eq_true, if_false]
      rw [ih false hall.2 (by rw [← hc]; exact hnp.2)]

theorem headNotWs_dropWhile (l : List Char) :
    headNotWs (l.dropWhile pyIsSpace) = true := by
  induction l with
  | nil => rfl
  | cons c rest ih =>
    by_cases hc : pyIsSpace c = true
    · simpa [List.dropWhile_cons, hc] using ih
    · simp only [Bool.not_eq_true] at hc
      simp [List.dropWhile_cons, hc, headNotWs]

theorem headNotWs_append_left {a b : List Char} (h : headNotWs (a ++ b) = true) :
    headNotWs a = true := by
  cases a with
  | nil => rfl
  | cons c rest => simpa [headNotWs] using h

theorem headNotWs_append_of_left {a b : List Char} (ha : a ≠ [])
    (h : headNotWs a = true) : headNotWs (a ++ b) = true := by
  cases a with
  | nil => exact absurd rfl ha
  | cons c rest => simpa [headNotWs] using h

theorem lstrip_decomp (l : List Char) :
    l = l.takeWhile pyIsSpace ++ pyLStrip l := by
  rw [pyLStrip, List.takeWhile_append_dropWhile]

theorem rstrip_decomp (l : List Char) :
    l = pyRStrip l ++ (l.reverse.takeWhile pyIsSpace).reverse := by
  rw [pyRStrip]
  conv_lhs => rw [← List.reverse_reverse l]
  conv_lhs => rw [← List.takeWhile_append_dropWhile (p := pyIsSpace) (l := l.reverse)]
  rw [List.reverse_append]

theorem lstrip_of_head {l : List Char} (h : headNotWs l = true) : pyLStrip l = l := by
  cases l with
  | nil => rfl
  | cons c rest =>
    simp only [headNotWs, Bool.not_eq_true'] at h
    simp [pyLStrip, List.dropWhile_cons, h]

theorem rstrip_of_tail {l : List Char} (h : headNotWs l.reverse = true) :
    pyRStrip l = l := by
  rw [pyRStrip, show l.reverse.dropWhile pyIsSpace = l.reverse from lstrip_of_head h,
    List.reverse_reverse]

theorem beq_target_false {t : Char} (ht : pyIsSpace t = false) :
    ∀ c, pyIsSpace c = true → (c == t) = false := by
  intro c hsp
  by_cases h : c = t
  · subst h; rw [hsp] at ht; cases ht
  · simp [h]

theorem sub_estab (t : Char) (ht : pyIsSpace t = false) :
    ∀ (l buf : List Char), buf.all pyIsSpace = true →
      noWsPairGo (fun c => c == t) false (subWsBeforeGo t buf l) = true := by
  intro l
  induction l with
  | nil =>
    intro buf hbuf
    simp only [subWsBeforeGo]
    exact nwp_allws (beq_target_false ht) _ _ (by rw [List.all_reverse]; exact hbuf)
  | cons c rest ih =>
    intro buf hbuf
    by_cases hc : pyIsSpace c = true
    · simp only [subWsBeforeGo, hc, if_true]
      exact ih (c :: buf) (by simp [hc, hbuf])
    · simp only [Bool.not_eq_true] at hc
      by_cases hct : (c == t) = true
      · have hcv : c = t := eq_of_beq hct
        simp only [subWsBeforeGo, hc, Bool.false_eq_true, if_false, hct, if_true]
        simp only [noWsPairGo, Bool.false_and, Bool.not_false, Bool.true_and, hc]
        exact ih [] rfl
      · simp only [Bool.not_eq_true] at hct
        simp only [subWsBeforeGo, hc, hct, Bool.false_eq_true, if_false]
        rw [nwp_allws_append (beq_target_false ht) hct _ _ (by simpa using hbuf), hc]
        exact ih [] rfl

theorem sub_preserve (t : Char) (q : Char → Bool) (ht : pyIsSpace t = false)
    (hqt : q t = false) :
    ∀ (l buf : List Char) (b : Bool), buf.all pyIsSpace = true →
      noWsPairGo q b (buf.reverse ++ l) = true →
      noWsPairGo q false (subWsBeforeGo t buf l) = true := by
  intro l
  induction l with
  | nil =>
    intro buf b _ h
    rw [List.append_nil] at h
    exact nwp_mono b h
  | cons c rest ih =>
    intro buf b hbuf h
    by_cases hc : pyIsSpace c = true
    · simp only [subWsBeforeGo, hc, if_true]
      refine ih (c :: buf) b (by simp [hc, hbuf]) ?_
      rw [List.reverse_cons, List.append_assoc]
      simpa using h
    · simp only [Bool.not_eq_true] at hc
      rw [nwp_append_split] at h
      simp only [Bool.and_eq_true] at h
      by_cases hct : (c == t) = true
      · have hcv : c = t := eq_of_beq hct
        simp only [subWsBeforeGo, hc, Bool.false_eq_true, if_false, hct, if_true]
        simp only [noWsPairGo, Bool.false_and, Bool.not_false, Bool.true_and, hc]
        refine ih [] (pyIsSpace c) rfl ?_
        simpa using h.2
      · simp only [Bool.not_eq_true] at hct
        simp only [subWsBeforeGo, hc, hct, Bool.false_eq_true, if_false]
        rw [nwp_append_split]
        simp only [Bool.and_eq_true]
        refine ⟨nwp_mono b h.1, ?_⟩
        rw [hc]
        refine ih [] (pyIsSpace c) rfl ?_
        simpa using h.2

theorem sub_id (t : Char) (ht : pyIsSpace t = false) :
    ∀ (l buf : List Char), buf.all pyIsSpace = true →
      noWsPairGo (fun c => c == t) false (buf.reverse ++ l) = true →
      subWsBeforeGo t buf l = buf.reverse ++ l := by
  intro l
  induction l with
  | nil => intro buf _ _; simp [subWsBeforeGo]
  | cons c rest ih =>
    intro buf hbuf h
    by_cases hc : pyIsSpace c = true
    · simp only [subWsBeforeGo, hc, if_true]
      rw [ih (c :: buf) (by simp [hc, hbuf]) (by rw [List.reverse_cons, List.append_assoc]; simpa using h)]
      simp
    · simp only [Bool.not_eq_true] at hc
      by_cases hct : (c == t) = true
      · have hcv : c = t := eq_of_beq hct
        have hbnil : buf = [] := by
          cases hb : buf with
          | nil => rfl
          | cons x bs =>
            exfalso
            rw [hb] at h hbuf
            rw [nwp_append_split] at h
            have hfalse := nwp_allws_target (q := fun d => d == t) (c := c)
              (by simp [hcv]) (x :: bs).reverse false
              (by rw [List.all_reverse]; exact hbuf) (by simp)
            rw [hfalse] at h
            simpa using h
        subst hbnil
        simp only [subWsBeforeGo, hc, Bool.false_eq_true, if_false, hct, if_true,
          List.reverse_nil, List.nil_append] at h ⊢
        simp only [noWsPairGo, Bool.false_and, Bool.not_false, Bool.true_and, hc] at h
        rw [ih [] rfl (by simpa using h)]
        simp
      · simp only [Bool.not_eq_true] at hct
        simp only [subWsBeforeGo, hc, hct, Bool.false_eq_true, if_false]
        rw [nwp_append_split] at h
        simp only [Bool.and_eq_true] at h
        have h2 := h.2
        rw [hc] at h2
        rw [ih [] rfl (by simpa using h2)]
        simp

theorem sub_all (t : Char) (p : Char → Bool) :
    ∀ (l buf : List Char), buf.all p = true → l.all p = true →
      (subWsBeforeGo t buf l).all p = true := by
  intro l
  induction l with
  | nil =>
    intro buf hbuf _
    simp only [subWsBeforeGo, List.all_reverse]
    exact hbuf
  | cons c rest ih =>
    intro buf hbuf hl
    simp only [List.all_cons, Bool.and_eq_true] at hl
    by_cases hc : pyIsSpace c = true
    · simp only [subWsBeforeGo, hc, if_true]
      exact ih (c :: buf) (by simp [hl.1, hbuf]) hl.2
    · simp only [Bool.not_eq_true] at hc
      by_cases hct : (c == t) = true
      · simp only [subWsBeforeGo, hc, Bool.false_eq_true, if_false, hct, if_true,
          List.all_cons, Bool.and_eq_true]
        exact ⟨hl.1, ih [] rfl hl.2⟩
      · simp only [Bool.not_eq_true] at hct
        simp only [subWsBeforeGo, hc, hct, Bool.false_eq_true, if_false,
          List.all_append, List.all_cons, List.all_reverse, Bool.and_eq_true]
        exact ⟨hbuf, hl.1, ih [] rfl hl.2⟩

theorem sub_head (t : Char) (l : List Char) (h : headNotWs l = true) :
    headNotWs (pySubWsBefore t l) = true := by
  cases l with
  | nil => rfl
  | cons c rest =>
    simp only [headNotWs, Bool.not_eq_true'] at h
    by_cases hct : (c == t) = true
    · simp [pySubWsBefore, subWsBeforeGo, h, hct, headNotWs]
    · simp only [Bool.not_eq_true] at hct
      simp [pySubWsBefore, subWsBeforeGo, h, hct, headNotWs]

theorem sub_tail (t : Char) (ht : pyIsSpace t = false) :
    ∀ (l buf : List Char), headNotWs (l.reverse ++ buf) = true →
      headNotWs (subWsBeforeGo t buf l).reverse = true := by
  intro l
  induction l with
  | nil =>
    intro buf h
    simpa [subWsBeforeGo] using h
  | cons c rest ih =>
    intro buf h
    rw [List.reverse_cons, List.append_assoc] at h
    by_cases hc : pyIsSpace c = true
    · simp only [subWsBeforeGo, hc, if_true]
      exact ih (c :: buf) (by simpa using h)
    · simp only [Bool.not_eq_true] at hc
      have hr : headNotWs rest.reverse = true := headNotWs_append_left h
      by_cases hct : (c == t) = true
      · have hcv : c = t := eq_of_beq hct
        simp only [subWsBeforeGo, hc, Bool.false_eq_true, if_false, hct, if_true,
          List.reverse_cons]
        have hX := ih [] (by simpa using hr)
        cases hXr : (subWsBeforeGo t [] rest).reverse with
        | nil => simp [headNotWs, hcv, ht]
        | cons y ys =>
          rw [hXr] at hX
          exact headNotWs_append_of_left (by simp) hX
      · simp only [Bool.not_eq_true] at hct
        simp only [subWsBeforeGo, hc, hct, Bool.false_eq_true, if_false,
          List.reverse_append, List.reverse_cons, List.reverse_reverse,
          List.append_assoc]
        have hX := ih [] (by simpa using hr)
        cases hXr : (subWsBeforeGo t [] rest).reverse with
        | nil => simp [hXr, headNotWs, hc]
        | cons y ys =>
          rw [hXr] at hX
          simpa [headNotWs] using hX

theorem strip_facts (w : List Char) (hall : w.all okChar = true)
    (hnws : noWsPairGo pyIsSpace false w = true) :
    (pyStrip w).all okChar = true ∧ noWsPairGo pyIsSpace false (pyStrip w) = true ∧
      headNotWs (pyStrip w) = true ∧ headNotWs (pyStrip w).reverse = true := by
  have e1 := lstrip_decomp w
  have hl_all : (pyLStrip w).all okChar = true := by
    rw [e1, List.all_append, Bool.and_eq_true] at hall
    exact hall.2
  have hl_nws : noWsPairGo pyIsSpace false (pyLStrip w) = true := by
    rw [e1] at hnws
    exact nwp_append_right _ _ hnws
  have e2 : pyLStrip w = pyStrip w ++ ((pyLStrip w).reverse.takeWhile pyIsSpace).reverse :=
    rstrip_decomp (pyLStrip w)
  refine ⟨?_, ?_, ?_, ?_⟩
  · rw [e2, List.all_append, Bool.and_eq_true] at hl_all
    exact hl_all.1
  · rw [e2] at hl_nws
    exact nwp_append_left _ _ hl_nws
  · have hlh : headNotWs (pyLStrip w) = true := headNotWs_dropWhile w
    rw [e2] at hlh
    exact headNotWs_append_left hlh
  · show headNotWs (pyRStrip (pyLStrip w)).reverse = true
    rw [pyRStrip, List.reverse_reverse]
    exact headNotWs_dropWhile _

theorem normalize_invariants (x : List Char) :
    (normalize_for_speech x).all okChar = true ∧
      noWsPairGo pyIsSpace false (normalize_for_speech x) = true ∧
      headNotWs (normalize_for_speech x) = true ∧
      headNotWs (normalize_for_speech x).reverse = true ∧
      noWsPairGo (fun c => c == ',') false (normalize_for_speech x) = true ∧
      noWsPairGo (fun c => c == '.') false (normalize_for_speech x) = true := by
  have hw_all : (pyCollapseWs x).all okChar = true := collapse_allOk x false
  have hw_nws : noWsPairGo pyIsSpace false (pyCollapseWs x) = true := collapse_nws x false
  obtain ⟨hs_all, hs_nws, hs_head, hs_tail⟩ := strip_facts (pyCollapseWs x) hw_all hw_nws
  set s := pyStrip (pyCollapseWs x) with hs
  have hc_all : (pySubWsBefore ',' s).all okChar = true := sub_all ',' okChar s [] rfl hs_all
  have hc_nws : noWsPairGo pyIsSpace false (pySubWsBefore ',' s) = true :=
    sub_preserve ',' pyIsSpace (by decide) (by decide) s [] false rfl (by simpa using hs_nws)
  have hc_head : headNotWs (pySubWsBefore ',' s) = true := sub_head ',' s hs_head
  have hc_tail : headNotWs (pySubWsBefore ',' s).reverse = true :=
    sub_tail ',' (by decide) s [] (by simpa using hs_tail)
  have hc_npc : noWsPairGo (fun c => c == ',') false (pySubWsBefore ',' s) = true :=
    sub_estab ',' (by decide) s [] rfl
  set c1 := pySubWsBefore ',' s with hc1
  have hy_all : (pySubWsBefore '.' c1).all okChar = true := sub_all '.' okChar c1 [] rfl hc_all
  have hy_nws : noWsPairGo pyIsSpace false (pySubWsBefore '.' c1) = true :=
    sub_preserve '.' pyIsSpace (by decide) (by decide) c1 [] false rfl (by simpa using hc_nws)
  have hy_head : headNotWs (pySubWsBefore '.' c1) = true := sub_head '.' c1 hc_head
  have hy_tail : headNotWs (pySubWsBefore '.' c1).reverse = true :=
    sub_tail '.' (by decide) c1 [] (by simpa using hc_tail)
  have hy_npc : noWsPairGo (fun c => c == ',') false (pySubWsBefore '.' c1) = true :=
    sub_preserve '.' (fun c => c == ',') (by decide) (by decide) c1 [] false rfl
      (by simpa using hc_npc)
  have hy_npd : noWsPairGo (fun c => c == '.') false (pySubWsBefore '.' c1) = true :=
    sub_estab '.' (by decide) c1 [] rfl
  exact ⟨hy_all, hy_nws, hy_head, hy_tail, hy_npc, hy_npd⟩

theorem normalize_fixed {y : List Char}
    (h_all : y.all okChar = true) (h_nws : noWsPairGo pyIsSpace false y = true)
    (h_head : headNotWs y = true) (h_tail : headNotWs y.reverse = true)
    (h_npc : noWsPairGo (fun c => c == ',') false y = true)
    (h_npd : noWsPairGo (fun c => c == '.') false y = true) :
    normalize_for_speech y = y := by
  have hW : pyCollapseWs y = y := collapse_id y false h_all h_nws
  have hS : pyStrip y = y := by
    rw [pyStrip, lstrip_of_head h_head, rstrip_of_tail h_tail]
  have hC : pySubWsBefore ',' y = y := by
    have := sub_id ',' (by decide) y [] rfl (by simpa using h_npc)
    simpa using this
  have hD : pySubWsBefore '.' y = y := by
    have := sub_id '.' (by decide) y [] rfl (by simpa using h_npd)
    simpa using this
  rw [normalize_for_speech, hW, hS, hC, hD]

/-- C4: for every text input `x`, the text normalizer of the server is
idempotent: `normalize_for_speech (normalize_for_speech x) =
normalize_for_speech x`. -/
theorem claim_C4_normalize_idempotent (x : List Char) :
    normalize_for_speech (normalize_for_speech x) = normalize_for_speech x := by
  obtain ⟨h1, h2, h3, h4, h5, h6⟩ := normalize_invariants x
  exact normalize_fixed h1 h2 h3 h4 h5 h6

/-- C3 counterexample: at speed `1/10` (which is positive) and a two-word
text, the code's duration (denominator floored at `0.5`) is `4`, while the
claimed formula `clamp(word_count / (2.8 * speed), 0.35, 12.0)` gives
`50/7`. -/
theorem claim_C3_counterexample :
    (0 : ℚ) < 1 / 10 ∧
      stubDurationSeconds "a b".toList (1 / 10) ≠ stubDurationSpec "a b".toList (1 / 10) := by
  have hw : pyWordCount "a b".toList = 2 := rfl
  constructor
  · norm_num
  · rw [stubDurationSeconds, stubRawDuration, stubDurationSpec, hw]
    norm_num [max_def, min_def]

/-- C3 (amended): for every text and every speed of at least `5/28` (so that
`2.8 * speed ≥ 0.5` and the code's floor on the denominator is inactive),
the stub duration equals `clamp(word_count / (2.8 * speed), 0.35, 12.0)`,
and doubling the speed halves the raw (pre-clamp) duration. -/
theorem claim_C3_stub_duration (text : List Char) (speed : ℚ)
    (h : 5 / 28 ≤ speed) :
    stubDurationSeconds text speed = stubDurationSpec text speed ∧
      stubRawDuration text (2 * speed) = stubRawDuration text speed / 2 := by
  have hs : (5 : ℚ) / 10 ≤ 28 / 10 * speed := by linarith
  have hs2 : (5 : ℚ) / 10 ≤ 28 / 10 * (2 * speed) := by linarith
  have hpos : (0 : ℚ) < speed := lt_of_lt_of_le (by norm_num) h
  constructor
  · rw [stubDurationSeconds, stubRawDuration, stubDurationSpec, max_eq_left hs]
  · rw [stubRawDuration, stubRawDuration, max_eq_left hs, max_eq_left hs2, div_div]
    congr 1
    ring

/-- Witness for `claim_C3_stub_duration` at speed `1` and a three-word text. -/
theorem claim_C3_witness :
    stubDurationSeconds "a b c".toList 1 = stubDurationSpec "a b c".toList 1 ∧
      stubRawDuration "a b c".toList (2 * 1) = stubRawDuration "a b c".toList 1 / 2 :=
  claim_C3_stub_duration "a b c".toList 1 (by norm_num)

theorem startsWithBracket_tagMark (nt : List (List Char)) (h : nt ≠ [])
    (rest : List Char) :
    startsWithBracket
      (joinSep [' '] (nt.map (fun t => '[' :: (t ++ [']']))) ++ rest) = true := by
  cases nt with
  | nil => exact absurd rfl h
  | cons a as =>
    cases as with
    | nil => simp [joinSep, startsWithBracket]
    | cons b bs => simp [joinSep, startsWithBracket]

/-- C6 counterexample: the whitespace-only tag list `[" "]` is non-empty and
`"hello"` does not start with a bracket, yet the output does not start with
the bracketed rendering of the lowercased, trimmed tags (which would be
`"[]"`): the code discards tags that are empty after trimming and returns
the text unchanged. -/
theorem claim_C6_counterexample :
    ([" ".toList] : List (List Char)) ≠ [] ∧
      startsWithBracket "hello".toList = false ∧
      (apply_expression_tags "hello".toList [" ".toList]).take
          (claimedTagRendering [" ".toList]).length ≠
        claimedTagRendering [" ".toList] := by
  refine ⟨by decide, by decide, by decide⟩

/-- C6 (amended): for every tag list containing at least one tag that is
non-empty after trimming, and every text not starting with an opening
bracket, the output of `apply_expression_tags` is the bracketed rendering
of the surviving (trimmed, lowercased) tags in their original order,
followed by a space and the original text. -/
theorem claim_C6_tag_rendering (tags : List (List Char)) (text : List Char)
    (h1 : tags.filter (fun t => pyStrip t ≠ []) ≠ [])
    (h2 : startsWithBracket text = false) :
    apply_expression_tags text tags =
      claimedTagRendering (tags.filter (fun t => pyStrip t ≠ [])) ++ ' ' :: text := by
  have htags : tags ≠ [] := by
    intro h
    rw [h] at h1
    exact h1 rfl
  have hnt : (tags.filter (fun t => pyStrip t ≠ [])).map (fun t => pyLower (pyStrip t)) ≠ [] := by
    simpa using h1
  rw [apply_expression_tags]
  simp only [htags, if_false, hnt, h2, Bool.false_eq_true]
  rw [claimedTagRendering, List.map_map]
  rfl

/-- Witness for `claim_C6_tag_rendering`: the tag `" Laughs "` survives
trimming, so the output is `"[laughs] hello"`. -/
theorem claim_C6_witness :
    apply_expression_tags "hello".toList [" Laughs ".toList] =
      claimedTagRendering ([" Laughs ".toList].filter (fun t => pyStrip t ≠ [])) ++
        ' ' :: "hello".toList :=
  claim_C6_tag_rendering [" Laughs ".toList] "hello".toList (by decide) (by decide)

theorem apply_tags_of_bracket (tags : List (List Char)) {x : List Char}
    (h : startsWithBracket x = true) : apply_expression_tags x tags = x := by
  unfold apply_expression_tags
  split
  · rfl
  · dsimp only
    split
    · rfl
    · simp [h]

theorem apply_tags_cases (text : List Char) (tags : List (List Char)) :
    apply_expression_tags text tags = text ∨
      startsWithBracket (apply_expression_tags text tags) = true := by
  unfold apply_expression_tags
  split
  · exact Or.inl rfl
  · dsimp only
    split
    · exact Or.inl rfl
    · next h2 =>
      split
      · exact Or.inl rfl
      · exact Or.inr (startsWithBracket_tagMark _ h2 _)

/-- C9: `apply_expression_tags` is idempotent in its text argument: applying
it a second time with the same tag list to its own output returns that
output unchanged, because a tag-prefixed output starts with an opening
bracket and bracket-initial text is left untouched. -/
theorem claim_C9_apply_tags_idempotent (text : List Char) (tags : List (List Char)) :
    apply_expression_tags (apply_expression_tags text tags) tags =
      apply_expression_tags text tags := by
  rcases apply_tags_cases text tags with h | h
  · rw [h]; exact h
  · exact apply_tags_of_bracket tags h

/-- C2 counterexample: after the probe has been attempted (and reported
available), a subsequent `get_mlx_loader` call whose in-process import
fails *does* modify the probe fields: availability flips to false and the
error string is set.  So the probe fields are not immutable once the probe
has been attempted. -/
theorem claim_C2_counterexample :
    (probe_mlx_runtime envC2 initialRuntimeState).mlx_probe_attempted = true ∧
      ((get_mlx_loader envC2 (probe_mlx_runtime envC2 initialRuntimeState)).2.mlx_probe_available ≠
          (probe_mlx_runtime envC2 initialRuntimeState).mlx_probe_available ∨
        (get_mlx_loader envC2 (probe_mlx_runtime envC2 initialRuntimeState)).2.mlx_probe_error ≠
          (probe_mlx_runtime envC2 initialRuntimeState).mlx_probe_error) := by
  refine ⟨by decide, Or.inl (by decide)⟩

theorem probe_attempted_of_attempted {env : RuntimeEnv} {s : RuntimeState}
    (h : s.mlx_probe_attempted = true) : probe_mlx_runtime env s = s := by
  rw [probe_mlx_runtime, if_pos h]

theorem available_state_of_attempted {env : RuntimeEnv} {s : RuntimeState}
    (h : s.mlx_probe_attempted = true) : (mlx_runtime_available env s).2 = s := by
  rw [mlx_runtime_available]
  split
  · rfl
  · simp [h]

theorem get_or_load_probe_fields (env : RuntimeEnv) (s : RuntimeState)
    (kind : List Char) :
    (get_or_load_model env s kind).2.mlx_probe_available =
        (get_mlx_loader env s).2.mlx_probe_available ∧
      (get_or_load_model env s kind).2.mlx_probe_error =
        (get_mlx_loader env s).2.mlx_probe_error ∧
      (get_or_load_model env s kind).2.model_cache =
        (get_mlx_loader env s).2.model_cache ++
          ((get_or_load_model env s kind).2.model_cache.drop
            (get_mlx_loader env s).2.model_cache.length) := by
  rw [get_or_load_model]
  rcases hl : get_mlx_loader env s with ⟨loader, sa⟩
  cases loader with
  | none => simp
  | some u =>
    simp only
    cases hlk : List.lookup kind sa.model_cache with
    | some h => simp
    | none =>
      cases hr : resolve_model_source env kind with
      | error e => simp
      | ok source => simp

theorem probe_basic (env : RuntimeEnv) (s : RuntimeState) :
    (probe_mlx_runtime env s).mlx_probe_attempted = true ∧
      (probe_mlx_runtime env s).model_cache = s.model_cache ∧
      (probe_mlx_runtime env s).model_source = s.model_source ∧
      (probe_mlx_runtime env s).load_calls = s.load_calls ∧
      (probe_mlx_runtime env s).mlx_load_model = s.mlx_load_model := by
  rw [probe_mlx_runtime]
  split
  · next h => exact ⟨h, rfl, rfl, rfl, rfl⟩
  · cases env.probeOutcome with
    | ok res =>
      dsimp only
      split <;> simp
    | error msg => simp

theorem available_pair_of_attempted {env : RuntimeEnv} {s : RuntimeState}
    (h : s.mlx_probe_attempted = true) :
    mlx_runtime_available env s = (mlx_runtime_enabled env && s.mlx_probe_available, s) := by
  rw [mlx_runtime_available]
  split
  · next he =>
    simp only [Bool.not_eq_true] at he
    rw [he]
    simp
  · next he =>
    simp only [Bool.not_eq_true] at he
    rw [eq_true_of_ne_false he]
    simp [h]

/-- Behavior of `get_mlx_loader` on a state whose probe has been attempted:
either the probe fields are untouched, or the in-process import failed and
they are downgraded to unavailable with the import error recorded. -/
theorem get_mlx_loader_of_attempted {env : RuntimeEnv} {s : RuntimeState}
    (h : s.mlx_probe_attempted = true) :
    ((get_mlx_loader env s).2.mlx_probe_available = s.mlx_probe_available ∧
      (get_mlx_loader env s).2.mlx_probe_error = s.mlx_probe_error) ∨
      (∃ msg, env.importOutcome = .error msg ∧
        (get_mlx_loader env s).2.mlx_probe_available = false ∧
        (get_mlx_loader env s).2.mlx_probe_error = some msg) := by
  rw [get_mlx_loader, available_pair_of_attempted h]
  dsimp only
  split
  · exact Or.inl ⟨rfl, rfl⟩
  · split
    · exact Or.inl ⟨rfl, rfl⟩
    · cases hi : env.importOutcome with
      | error msg => exact Or.inr ⟨msg, rfl, rfl, rfl⟩
      | ok u => exact Or.inl ⟨rfl, rfl⟩

/-- C2 (amended): once the probe has been attempted, `probe_mlx_runtime` and
`mlx_runtime_available` leave the state untouched, and the probe fields are
only ever modified by `get_mlx_loader` (also when reached through
`get_or_load_model`) in one specific way: when the in-process import of the
mlx loader fails, availability is set to false and the import error message
is recorded.  In particular availability never flips back to true. -/
theorem claim_C2_probe_immutable (env : RuntimeEnv) (s : RuntimeState)
    (kind : List Char) (h : s.mlx_probe_attempted = true) :
    probe_mlx_runtime env s = s ∧
      (mlx_runtime_available env s).2 = s ∧
      (((get_mlx_loader env s).2.mlx_probe_available = s.mlx_probe_available ∧
          (get_mlx_loader env s).2.mlx_probe_error = s.mlx_probe_error) ∨
        (∃ msg, env.importOutcome = .error msg ∧
          (get_mlx_loader env s).2.mlx_probe_available = false ∧
          (get_mlx_loader env s).2.mlx_probe_error = some msg)) ∧
      (((get_or_load_model env s kind).2.mlx_probe_available = s.mlx_probe_available ∧
          (get_or_load_model env s kind).2.mlx_probe_error = s.mlx_probe_error) ∨
        (∃ msg, env.importOutcome = .error msg ∧
          (get_or_load_model env s kind).2.mlx_probe_available = false ∧
          (get_or_load_model env s kind).2.mlx_probe_error = some msg)) := by
  refine ⟨probe_attempted_of_attempted h, available_state_of_attempted h,
    get_mlx_loader_of_attempted h, ?_⟩
  obtain ⟨hav, herr, _⟩ := get_or_load_probe_fields env s kind
  rw [hav, herr]
  exact get_mlx_loader_of_attempted h

/-- Witness for `claim_C2_probe_immutable` at a concrete environment and a
concrete post-probe state. -/
theorem claim_C2_witness :
    probe_mlx_runtime envC2 stateC2 = stateC2 ∧
      (mlx_runtime_available envC2 stateC2).2 = stateC2 ∧
      (((get_mlx_loader envC2 stateC2).2.mlx_probe_available = stateC2.mlx_probe_available ∧
          (get_mlx_loader envC2 stateC2).2.mlx_probe_error = stateC2.mlx_probe_error) ∨
        (∃ msg, envC2.importOutcome = .error msg ∧
          (get_mlx_loader envC2 stateC2).2.mlx_probe_available = false ∧
          (get_mlx_loader envC2 stateC2).2.mlx_probe_error = some msg)) ∧
      (((get_or_load_model envC2 stateC2 "kokoro".toList).2.mlx_probe_available =
            stateC2.mlx_probe_available ∧
          (get_or_load_model envC2 stateC2 "kokoro".toList).2.mlx_probe_error =
            stateC2.mlx_probe_error) ∨
        (∃ msg, envC2.importOutcome = .error msg ∧
          (get_or_load_model envC2 stateC2 "kokoro".toList).2.mlx_probe_available = false ∧
          (get_or_load_model envC2 stateC2 "kokoro".toList).2.mlx_probe_error = some msg)) :=
  claim_C2_probe_immutable envC2 stateC2 "kokoro".toList rfl

theorem lookup_append_self {kind : List Char} {l : List (List Char × ℕ)} {h : ℕ}
    (hn : List.lookup kind l = none) :
    List.lookup kind (l ++ [(kind, h)]) = some h := by
  induction l with
  | nil => simp [List.lookup]
  | cons p t ih =>
    rcases p with ⟨a, b⟩
    simp only [List.lookup, List.cons_append] at hn ⊢
    cases hab : (kind == a) with
    | true => rw [hab] at hn; simp at hn
    | false => rw [hab] at hn; exact ih hn

/-- Success characterization of `get_mlx_loader`: a returned loader implies
the runtime is enabled and the resulting state has the probe attempted,
available, and the loader reference cached; cache-related fields are
untouched. -/
theorem get_mlx_loader_ok {env : RuntimeEnv} {s s1 : RuntimeState}
    (h : get_mlx_loader env s = (some (), s1)) :
    mlx_runtime_enabled env = true ∧ s1.mlx_probe_attempted = true ∧
      s1.mlx_probe_available = true ∧ s1.mlx_load_model = true ∧
      s1.model_cache = s.model_cache ∧ s1.load_calls = s.load_calls := by
  rw [get_mlx_loader] at h
  rcases ha : mlx_runtime_available env s with ⟨avail, sa⟩
  rw [ha] at h
  dsimp only at h
  have henabled : mlx_runtime_enabled env = true := by
    by_contra he
    rw [mlx_runtime_available] at ha
    rw [if_pos (by simpa using he)] at ha
    cases ha
    simp at h
  have hsa_att : sa.mlx_probe_attempted = true ∧ sa.model_cache = s.model_cache ∧
      sa.load_calls = s.load_calls ∧ sa.mlx_load_model = s.mlx_load_model ∧
      avail = sa.mlx_probe_available := by
    rw [mlx_runtime_available, if_neg (by simp [henabled])] at ha
    by_cases hatt : s.mlx_probe_attempted = true
    · rw [if_neg (by simp [hatt])] at ha
      cases ha
      exact ⟨hatt, rfl, rfl, rfl, rfl⟩
    · rw [if_pos (by simpa using hatt)] at ha
      obtain ⟨hp1, hp2, hp3, hp4, hp5⟩ := probe_basic env s
      cases ha
      exact ⟨hp1, hp2, hp4, hp5, rfl⟩
  obtain ⟨h1, h2, h3, h4, h5⟩ := hsa_att
  by_cases hav : avail = true
  · rw [if_neg (by simp [hav])] at h
    by_cases hlm : sa.mlx_load_model = true
    · rw [if_pos hlm] at h
      cases h
      exact ⟨henabled, h1, by rw [← h5]; exact hav, hlm, h2, h3⟩
    · rw [if_neg hlm] at h
      cases hi : env.importOutcome with
      | error msg => rw [hi] at h; simp at h
      | ok u =>
        rw [hi] at h
        cases h
        exact ⟨henabled, h1, by rw [← h5]; exact hav, rfl, h2, h3⟩
  · rw [if_pos (by simpa using hav)] at h
    simp at h

/-- On a state with the probe attempted and available and the loader
reference cached, `get_mlx_loader` is a no-op returning the loader. -/
theorem get_mlx_loader_stable {env : RuntimeEnv} {s : RuntimeState}
    (h1 : mlx_runtime_enabled env = true) (h2 : s.mlx_probe_attempted = true)
    (h3 : s.mlx_probe_available = true) (h4 : s.mlx_load_model = true) :
    get_mlx_loader env s = (some (), s) := by
  rw [get_mlx_loader, available_pair_of_attempted h2]
  dsimp only
  rw [h1, h3]
  simp [h4]

/-- C5: from any state in which the model kind is not cached and the loader
has not yet been invoked, a successful `get_or_load_model` invokes the
resolved loader exactly once, and a second sequential call is a pure cache
hit: it returns the identical handle and leaves the state untouched. -/
theorem claim_C5_model_cache (env : RuntimeEnv) (s : RuntimeState)
    (kind : List Char) (h : ℕ) (s1 : RuntimeState)
    (hmiss : List.lookup kind s.model_cache = none)
    (hcount : s.load_calls = 0)
    (hfirst : get_or_load_model env s kind = (.ok h, s1)) :
    s1.load_calls = 1 ∧ get_or_load_model env s1 kind = (.ok h, s1) := by
  rw [get_or_load_model] at hfirst
  rcases hl : get_mlx_loader env s with ⟨loader, sa⟩
  rw [hl] at hfirst
  cases loader with
  | none => simp at hfirst
  | some u =>
    cases u
    obtain ⟨he, ha1, ha2, ha3, hc, hlc⟩ := get_mlx_loader_ok hl
    dsimp only at hfirst
    rw [hc] at hfirst
    rw [hmiss] at hfirst
    cases hr : resolve_model_source env kind with
    | error e => rw [hr] at hfirst; simp at hfirst
    | ok source =>
      rw [hr] at hfirst
      dsimp only at hfirst
      obtain ⟨hh, hs1⟩ := Prod.mk.injEq .. ▸ hfirst
      have hh' : h = env.loadModelFn source := by
        cases hh
        rfl
      subst hs1
      constructor
      · simp [hlc, hcount]
      · rw [get_or_load_model, get_mlx_loader_stable he (by simp [ha1]) (by simp [ha2])
          (by simp [ha3])]
        dsimp only
        rw [lookup_append_self hmiss, hh']

/-- Witness for `claim_C5_model_cache` on a fresh state: the first call
loads handle `7` once, the second returns it unchanged. -/
theorem claim_C5_witness :
    stateC5.load_calls = 1 ∧
      get_or_load_model envC5 stateC5 "kokoro".toList = (.ok 7, stateC5) :=
  claim_C5_model_cache envC5 initialRuntimeState "kokoro".toList 7 stateC5
    rfl rfl rfl

theorem ws_ne_key (k : List Char) (hk : k.all pyIsSpace = false) {v : List Char}
    (h : v.all pyIsSpace = true) : (v == k) = false := by
  cases hb : v == k with
  | false => rfl
  | true =>
    have hv := eq_of_beq hb
    rw [hv] at h
    rw [h] at hk
    cases hk

theorem lookup_ws_none {voice_id : List Char} (h : voice_id.all pyIsSpace = true) :
    List.lookup voice_id VOICE_MAP = none := by
  simp only [VOICE_MAP, List.lookup,
    ws_ne_key "kokoro_narrator".toList (by decide) h,
    ws_ne_key "kokoro_story".toList (by decide) h,
    ws_ne_key "chatterbox_expressive".toList (by decide) h,
    ws_ne_key "chatterbox_studio".toList (by decide) h]

theorem strip_of_allws {l : List Char} (h : l.all pyIsSpace = true) :
    pyStrip l = [] := by
  have h1 : pyLStrip l = [] := by
    rw [pyLStrip, List.dropWhile_eq_nil_iff]
    intro a ha
    simp only [List.all_eq_true] at h
    exact h a ha
  rw [pyStrip, h1]
  rfl

/-- C7: for every voice id that is empty or whitespace-only, and every model
kind, the voice resolver returns one of the non-empty default tokens
(`"neutral"` for non-kokoro kinds, `"af_heart"` for kokoro); in particular
it never returns the empty string. -/
theorem claim_C7_voice_default (env : VoiceEnv) (voice_id model_kind : List Char)
    (h : voice_id.all pyIsSpace = true) :
    (resolve_voice_id env voice_id model_kind = "neutral".toList ∨
        resolve_voice_id env voice_id model_kind = "af_heart".toList) ∧
      resolve_voice_id env voice_id model_kind ≠ [] := by
  have hlk := lookup_ws_none h
  have hm := strip_of_allws h
  rw [resolve_voice_id, hlk, Option.getD_none, hm]
  split
  · constructor
    · exact Or.inl rfl
    · rw [pyOr]
      simp
  · have hends : pyEndsWith ".safetensors".toList [] = false := by decide
    rw [if_neg (fun hcon => absurd hcon.1 (by decide))]
    dsimp only
    rw [hends]
    simp only [Bool.false_eq_true, if_false]
    rw [if_neg (by simp)]
    constructor
    · exact Or.inr rfl
    · rw [pyOr]
      simp

/-- Witness for `claim_C7_voice_default` at the whitespace voice id `" "`
and model kind `"kokoro"`. -/
theorem claim_C7_witness :
    (resolve_voice_id envC7 " ".toList "kokoro".toList = "neutral".toList ∨
        resolve_voice_id envC7 " ".toList "kokoro".toList = "af_heart".toList) ∧
      resolve_voice_id envC7 " ".toList "kokoro".toList ≠ [] :=
  claim_C7_voice_default envC7 " ".toList "kokoro".toList (by decide)

/-- C8: when the script resolves, the node invoker raises a RuntimeError on
a non-zero exit (message from stderr, else stdout, else the exit code) and
on a zero exit without an output file; it returns success only when the
output file exists, and then with the `kokoro-node` engine identifier,
which differs from the stub's. -/
theorem claim_C8_node_invoker (env : NodeEnv) (text output_path : List Char)
    (speed : ℚ) (voice_id : List Char) :
    (∀ r, synthesize_kokoro_node env text output_path speed voice_id = .ok r →
        env.outputExistsAfterRun = true ∧ r.used_engine = "kokoro-node".toList ∧
        r.used_engine ≠ "stub".toList) ∧
      (∀ s, resolve_kokoro_node_script_path env = .ok s →
        env.runResult.returncode ≠ 0 →
        synthesize_kokoro_node env text output_path speed voice_id =
          .error (.runtimeError
            ("kokoro-node synthesis failed: ".toList ++ nodeFailureDetail env.runResult))) ∧
      (∀ s, resolve_kokoro_node_script_path env = .ok s →
        env.runResult.returncode = 0 → env.outputExistsAfterRun = false →
        synthesize_kokoro_node env text output_path speed voice_id =
          .error (.runtimeError
            "kokoro-node synthesis completed without writing output file".toList)) := by
  refine ⟨?_, ?_, ?_⟩
  · intro r hr
    rw [synthesize_kokoro_node] at hr
    cases hs : resolve_kokoro_node_script_path env with
    | error e => rw [hs] at hr; simp at hr
    | ok sc =>
      rw [hs] at hr
      dsimp only at hr
      by_cases hrc : env.runResult.returncode ≠ 0
      · rw [if_pos hrc] at hr; simp at hr
      · rw [if_neg hrc] at hr
        by_cases hout : env.outputExistsAfterRun = false
        · rw [if_pos hout] at hr; simp at hr
        · rw [if_neg hout] at hr
          cases hr
          refine ⟨by simpa using hout, rfl, by dsimp only; decide⟩
  · intro s hs hrc
    rw [synthesize_kokoro_node, hs]
    dsimp only
    rw [if_pos hrc]
  · intro s hs hrc hout
    rw [synthesize_kokoro_node, hs]
    dsimp only
    rw [if_neg (by simp [hrc]), if_pos hout]

/-- Witness for `claim_C8_node_invoker`: with exit code 1 the invoker
raises the RuntimeError built from the exit code. -/
theorem claim_C8_witness :
    synthesize_kokoro_node envC8 "hi".toList "out.wav".toList 1 "v".toList =
      .error (.runtimeError
        ("kokoro-node synthesis failed: ".toList ++ nodeFailureDetail envC8.runResult)) :=
  (claim_C8_node_invoker envC8 "hi".toList "out.wav".toList 1 "v".toList).2.1
    "cli.mjs".toList rfl (by decide)

theorem synthStubStep_spec (env : SynthEnv) (cleaned output_path : List Char)
    (speed : ℚ) (model : List Char) :
    (env.stubOutcome cleaned output_path speed model = .ok () →
      ∃ r, synthStubStep env cleaned output_path speed model = .ok r) ∧
    ∀ e, synthStubStep env cleaned output_path speed model = .error e →
      env.stubOutcome cleaned output_path speed model = .error e := by
  rw [synthStubStep]
  cases env.stubOutcome cleaned output_path speed model with
  | ok u =>
    refine ⟨fun _ => ⟨⟨output_path, "stub".toList⟩, rfl⟩, fun e he => ?_⟩
    simp at he
  | error er =>
    refine ⟨fun hok => ?_, fun e he => ?_⟩
    · simp at hok
    · simpa using he

theorem synthesizeRest_cases (env : SynthEnv) (cleaned render output_path : List Char)
    (speed : ℚ) (model voice_id : List Char) (idx : ℕ) (evs : List BackendEvent) :
    (∃ r, (synthesizeRest env cleaned render output_path speed model voice_id idx evs).1 =
        .ok r) ∨
      (synthesizeRest env cleaned render output_path speed model voice_id idx evs).1 =
        synthStubStep env cleaned output_path speed model := by
  rw [synthesizeRest]
  obtain ⟨resn, hresn⟩ : ∃ x, env.nodeOutcome idx render output_path speed voice_id = x :=
    ⟨_, rfl⟩
  obtain ⟨resm, hresm⟩ : ∃ x, env.mlxOutcome render output_path speed model voice_id = x :=
    ⟨_, rfl⟩
  rw [hresn, hresm]
  split
  case isTrue =>
    split
    case isTrue =>
      cases resn with
      | ok r => exact Or.inl ⟨r, rfl⟩
      | error er => exact Or.inr rfl
    case isFalse => exact Or.inr rfl
  case isFalse =>
    cases resm with
    | ok u => exact Or.inl ⟨⟨output_path, "mlx-audio".toList⟩, rfl⟩
    | error er =>
      simp only []
      split
      case isTrue =>
        cases resn with
        | ok r => exact Or.inl ⟨r, rfl⟩
        | error er2 => exact Or.inr rfl
      case isFalse => exact Or.inr rfl

theorem synthesizeRest_spec (env : SynthEnv) (cleaned render output_path : List Char)
    (speed : ℚ) (model voice_id : List Char) (idx : ℕ) (evs : List BackendEvent) :
    (env.stubOutcome cleaned output_path speed model = .ok () →
      ∃ r, (synthesizeRest env cleaned render output_path speed model voice_id idx evs).1 =
        .ok r) ∧
    ∀ e, (synthesizeRest env cleaned render output_path speed model voice_id idx evs).1 =
        .error e →
      env.stubOutcome cleaned output_path speed model = .error e := by
  obtain ⟨hst1, hst2⟩ := synthStubStep_spec env cleaned output_path speed model
  rcases synthesizeRest_cases env cleaned render output_path speed model voice_id idx evs
    with ⟨r, hr⟩ | hstub
  · refine ⟨fun _ => ⟨r, hr⟩, fun e he => ?_⟩
    rw [hr] at he
    cases he
  · rw [hstub]
    exact ⟨hst1, hst2⟩

/-- C1: for every input and every behavior of the primary (mlx) and
secondary (node) backends, `synthesize` returns a `SynthResult` whenever
the stub generator's filesystem writes succeed; the only error that can
escape to the caller is one raised by the stub generator itself (on the
cleaned text and the requested output path). -/
theorem claim_C1_synthesize_total (env : SynthEnv) (text output_path : List Char)
    (speed : ℚ) (model voice_id : List Char) (tags : List (List Char)) :
    (env.stubOutcome (normalize_for_speech text) output_path speed model = .ok () →
      ∃ r, (synthesize env text output_path speed model voice_id tags).1 = .ok r) ∧
    ∀ e, (synthesize env text output_path speed model voice_id tags).1 = .error e →
      env.stubOutcome (normalize_for_speech text) output_path speed model = .error e := by
  rw [synthesize]
  obtain ⟨resn, hresn⟩ : ∃ x, env.nodeOutcome 0
      (apply_expression_tags (normalize_for_speech text) tags) output_path speed
      voice_id = x := ⟨_, rfl⟩
  rw [hresn]
  split
  case isTrue =>
    cases resn with
    | ok r =>
      refine ⟨fun _ => ⟨r, rfl⟩, fun e he => ?_⟩
      simp at he
    | error er => exact synthesizeRest_spec env _ _ _ _ _ _ _ _
  case isFalse => exact synthesizeRest_spec env _ _ _ _ _ _ _ _

theorem synthesizeRest_no_node (env : SynthEnv) (cleaned render output_path : List Char)
    (speed : ℚ) (model voice_id : List Char) (idx : ℕ) (evs : List BackendEvent)
    (hafter : should_try_node_after_python env.kokoroBackendVar model = false)
    (hevs : BackendEvent.nodeAttempt ∉ evs) :
    BackendEvent.nodeAttempt ∉
      (synthesizeRest env cleaned render output_path speed model voice_id idx evs).2 := by
  rw [synthesizeRest, hafter]
  obtain ⟨resm, hresm⟩ : ∃ x, env.mlxOutcome render output_path speed model voice_id = x :=
    ⟨_, rfl⟩
  rw [hresm]
  split
  case isTrue => simp [hevs]
  case isFalse =>
    cases resm with
    | ok u => simp [hevs]
    | error er => simp [hevs]

/-- C10: for every model kind other than `"kokoro"` (i.e. `"chatterbox"`)
and every value of the backend-mode environment variable, `synthesize`
never attempts the secondary (node) backend — neither before nor after the
primary attempt. -/
theorem claim_C10_no_node_for_chatterbox (env : SynthEnv) (text output_path : List Char)
    (speed : ℚ) (model voice_id : List Char) (tags : List (List Char))
    (h : model ≠ "kokoro".toList) :
    BackendEvent.nodeAttempt ∉
      (synthesize env text output_path speed model voice_id tags).2 := by
  have hb : should_try_node_before_python env.kokoroBackendVar model = false := by
    rw [should_try_node_before_python, if_pos h]
  have ha : should_try_node_after_python env.kokoroBackendVar model = false := by
    rw [should_try_node_after_python, if_pos h]
  rw [synthesize, hb]
  simp only [Bool.false_eq_true, if_false]
  exact synthesizeRest_no_node env _ _ _ _ _ _ _ _ ha (by simp)

/-- Witness for `claim_C1_synthesize_total`: with both backends failing and
a healthy filesystem, `synthesize` still returns a result. -/
theorem claim_C1_witness :
    ∃ r, (synthesize envC1 "hi there".toList "out.wav".toList 1 "kokoro".toList
      "v".toList []).1 = .ok r :=
  (claim_C1_synthesize_total envC1 "hi there".toList "out.wav".toList 1
    "kokoro".toList "v".toList []).1 rfl

/-- Witness for `claim_C10_no_node_for_chatterbox` at model kind
`"chatterbox"`. -/
theorem claim_C10_witness :
    BackendEvent.nodeAttempt ∉
      (synthesize envC1 "hi".toList "out.wav".toList 1 "chatterbox".toList
        "v".toList []).2 :=
  claim_C10_no_node_for_chatterbox envC1 "hi".toList "out.wav".toList 1
    "chatterbox".toList "v".toList [] (by decide)
